import Mathlib

/-!
Verification of the percentile-reporter utility (`scripts/p95_p99_parser.py`).

The script reads newline-delimited latency samples, parses each line as a
float (silently skipping malformed lines), and prints the nearest-rank
P50 / P95 / P99 values.

Shallow embedding conventions:
* Numeric samples are modelled as rationals (`ℚ`): every literal that the
  claims exercise is exactly representable, and the spec states all ranks
  with exact fractions.
* Python's in-place `list.sort()` is modelled by `List.insertionSort (· ≤ ·)`;
  callers thread the sorted value explicitly where the source mutates.
* Python's `int(x)` truncates toward zero: `pyInt`.
* Python's (possibly negative) list indexing, raising `IndexError` out of
  range, is modelled by `pyIndex : List ℚ → Int → Option ℚ` (`none` = raise).
* `float(s)` on a stripped line is modelled by `pyFloat`, covering the
  sign/digits/decimal-point/exponent grammar of finite decimal literals
  (`inf`/`nan` and underscore digit separators are outside the fragment the
  claims exercise).
* A program run is `prog_main argv file : ProgResult`, where `argv` is
  `sys.argv` (program name included), `file` is `none` when the input file
  cannot be opened, `stdout` collects printed lines, and `exitCode` is
  `some c` for a clean `sys.exit`/fall-through and `none` for an unhandled
  exception (crash before further output).
-/

namespace Audit

/-- Python `str.strip()` on the character list of a line: drop whitespace
from both ends. -/
def stripChars (cs : List Char) : List Char :=
  ((cs.dropWhile Char.isWhitespace).reverse.dropWhile Char.isWhitespace).reverse

/-- Python `line.strip()`. -/
def pyStrip (s : String) : String :=
  String.mk (stripChars s.data)

/-- Value of a list of decimal digit characters (most significant first). -/
def digitsVal (ds : List Char) : ℕ :=
  ds.foldl (fun a c => 10 * a + (c.toNat - 48)) 0

/-- Split a character list into its maximal leading run of decimal digits
and the remainder. -/
def splitDigits : List Char → List Char × List Char
  | [] => ([], [])
  | c :: cs =>
    if c.isDigit then
      let r := splitDigits cs
      (c :: r.1, r.2)
    else ([], c :: cs)

/-- Apply a decimal exponent to a mantissa: `m * 10 ^ e`. -/
def applyExp (m : ℚ) (e : Int) : ℚ :=
  if 0 ≤ e then m * (10 : ℚ) ^ e.toNat else m / (10 : ℚ) ^ (-e).toNat

/-- Exponent digits (after `e`/`E` and an optional sign): one or more
decimal digits consuming the whole rest of the input. -/
def parseExpDigits (cs : List Char) : Option Int :=
  match splitDigits cs with
  | ([], _) => none
  | (ds, []) => some (digitsVal ds : Int)
  | (_, _ :: _) => none

/-- Exponent part of a float literal: optional sign, then digits. -/
def parseExpPart (cs : List Char) : Option Int :=
  match cs with
  | '+' :: rest => parseExpDigits rest
  | '-' :: rest => (parseExpDigits rest).map Neg.neg
  | rest => parseExpDigits rest

/-- Mantissa value from integer-part and fraction-part digit lists. -/
def mantissa (ip fp : List Char) : ℚ :=
  (digitsVal ip : ℚ) + (digitsVal fp : ℚ) / (10 : ℚ) ^ fp.length

/-- Unsigned float literal: `digits [. digits] [exp]` or `. digits [exp]`,
consuming the whole input; `none` when the input is not such a literal. -/
def parseUnsigned (cs : List Char) : Option ℚ :=
  match splitDigits cs with
  | (ip, '.' :: rest2) =>
    let r := splitDigits rest2
    if ip.isEmpty && r.1.isEmpty then none
    else
      match r.2 with
      | [] => some (mantissa ip r.1)
      | 'e' :: rest4 => (parseExpPart rest4).map (applyExp (mantissa ip r.1))
      | 'E' :: rest4 => (parseExpPart rest4).map (applyExp (mantissa ip r.1))
      | _ => none
  | (ip, []) => if ip.isEmpty then none else some (digitsVal ip : ℚ)
  | (ip, 'e' :: rest2) =>
    if ip.isEmpty then none else (parseExpPart rest2).map (applyExp (digitsVal ip : ℚ))
  | (ip, 'E' :: rest2) =>
    if ip.isEmpty then none else (parseExpPart rest2).map (applyExp (digitsVal ip : ℚ))
  | _ => none

/-- Python `float(s)` on an already-stripped string: optional sign, then an
unsigned finite decimal literal; `none` models a raised `ValueError`. -/
def pyFloat (s : String) : Option ℚ :=
  match s.data with
  | '+' :: rest => parseUnsigned rest
  | '-' :: rest => (parseUnsigned rest).map (fun q => -q)
  | cs => parseUnsigned cs

/-- `parse_latencies` (source lines 6-14): for each line of the file, try
`float(line.strip())` and append on success; a `ValueError` is caught and
the loop continues with the next line. -/
def parse_latencies (lines : List String) : List ℚ :=
  match lines with
  | [] => []
  | line :: rest =>
    match pyFloat (pyStrip line) with
    | some v => v :: parse_latencies rest
    | none => parse_latencies rest

/-- Python `int(x)`: truncation toward zero. -/
def pyInt (x : ℚ) : Int :=
  if 0 ≤ x then ⌊x⌋ else ⌈x⌉

/-- Python list indexing `l[i]`: negative indices count from the end;
`none` models a raised `IndexError`. -/
def pyIndex (l : List ℚ) (i : Int) : Option ℚ :=
  if 0 ≤ i then l[i.toNat]?
  else if 0 ≤ (l.length : Int) + i then l[((l.length : Int) + i).toNat]? else none

/-- The index `min(int(len(data) * p), len(data) - 1)` computed by
`percentile` (source line 18-19), as a Python integer. -/
def percentileIdx (n : ℕ) (p : ℚ) : Int :=
  min (pyInt ((n : ℚ) * p)) ((n : Int) - 1)

/-- `percentile` (source lines 16-19): sort the samples in place, then
index the sorted list at `min(int(n * p), n - 1)`. -/
def percentile (data : List ℚ) (p : ℚ) : Option ℚ :=
  pyIndex (data.insertionSort (· ≤ ·)) (percentileIdx data.length p)

/-- Outcome of one run: the lines printed to standard output and the exit
status (`some c` for a clean exit, `none` for an unhandled exception). -/
structure ProgResult where
  stdout : List String
  exitCode : Option ℕ
deriving DecidableEq

/-- The usage message printed on a wrong argument count (source line 23). -/
def usageLine : String := "Usage: p95_p99_parser.py latency.txt"

/-- Modelled from the spec (§4.3, report printer): the source formats each
value with Python's default float-to-text conversion (an f-string), which
is not part of the repository's own code.  Modelled exactly for values in
the plain-decimal regime: an integral value `v` prints as `v.0`
(e.g. `str(30.0) = "30.0"`), a finite decimal prints its shortest decimal
digits.  Scientific notation for very large/small magnitudes is outside
the fragment the claims exercise. -/
def pyFloatStrNat (a : ℕ) (den : ℕ) : String :=
  if den = 1 then Nat.repr a ++ ".0"
  else
    match (List.range 61).find? (fun k => (10 : ℕ) ^ k % den = 0) with
    | some k =>
      let ds0 := (Nat.repr (a * ((10 : ℕ) ^ k / den))).data
      let ds := if ds0.length ≤ k then List.replicate (k + 1 - ds0.length) '0' ++ ds0 else ds0
      String.mk (ds.take (ds.length - k)) ++ "." ++ String.mk (ds.drop (ds.length - k))
    | none => Nat.repr a ++ "/" ++ Nat.repr den

/-- Python `str(v)` for a float of exact rational value `q`
(see `pyFloatStrNat`). -/
def pyFloatStr (q : ℚ) : String :=
  (if q.num < 0 then ("-") else ("")) ++ pyFloatStrNat q.num.natAbs q.den

/-- The three-print pipeline of the `__main__` block (source lines 26-29),
given the lines of the input file.  Each `percentile` call sorts the shared
list in place, so the second and third calls receive the already-sorted
list; a `none` from `percentile` is the `IndexError` crash, which stops
the run after the lines printed so far. -/
def pipeline (fileLines : List String) : ProgResult :=
  let d0 := parse_latencies fileLines
  let d1 := d0.insertionSort (· ≤ ·)
  let d2 := d1.insertionSort (· ≤ ·)
  match percentile d0 (1/2) with
  | none => ⟨[], none⟩
  | some v50 =>
    match percentile d1 (19/20) with
    | none => ⟨[("P50: ") ++ pyFloatStr v50 ++ (" ms")], none⟩
    | some v95 =>
      match percentile d2 (99/100) with
      | none =>
        ⟨[("P50: ") ++ pyFloatStr v50 ++ (" ms"),
          ("P95: ") ++ pyFloatStr v95 ++ (" ms")], none⟩
      | some v99 =>
        ⟨[("P50: ") ++ pyFloatStr v50 ++ (" ms"),
          ("P95: ") ++ pyFloatStr v95 ++ (" ms"),
          ("P99: ") ++ pyFloatStr v99 ++ (" ms")], some 0⟩

/-- The `__main__` block (source lines 21-29): `argv` is `sys.argv`
(program name included), `file` is `none` when opening the input path
raises (unhandled, crash with nothing printed). -/
def prog_main (argv : List String) (file : Option (List String)) : ProgResult :=
  if argv.length ≠ 2 then ⟨[usageLine], some 1⟩
  else
    match file with
    | none => ⟨[], none⟩
    | some fileLines => pipeline fileLines

/-- Does a line report a percentile (start with `P50: `, `P95: ` or
`P99: `)? -/
def isPercLine (s : String) : Bool :=
  s.data.take 5 == ("P50: ").data || s.data.take 5 == ("P95: ").data ||
    s.data.take 5 == ("P99: ").data

/-! Helper lemmas. -/

theorem percentileIdx_eq (n : ℕ) (p : ℚ) (h0 : 0 ≤ p) :
    percentileIdx n p = min ⌊(n : ℚ) * p⌋ ((n : Int) - 1) := by
  have hx : 0 ≤ (n : ℚ) * p := mul_nonneg (Nat.cast_nonneg n) h0
  simp [percentileIdx, pyInt, hx]

theorem floor_len_mul_lt (n : ℕ) (p : ℚ) (hn : 0 < n) (h1 : p < 1) :
    ⌊(n : ℚ) * p⌋ < (n : Int) := by
  rw [Int.floor_lt]
  push_cast
  exact mul_lt_of_lt_one_right (by exact_mod_cast hn) h1

theorem percentile_eq_getElem (data : List ℚ) (p : ℚ) (hne : data ≠ [])
    (h0 : 0 ≤ p) (h1 : p < 1) :
    percentile data p =
      (data.insertionSort (· ≤ ·))[(⌊(data.length : ℚ) * p⌋).toNat ⊓ (data.length - 1)]? := by
  have hn : 0 < data.length := List.length_pos.mpr hne
  have hk0 : 0 ≤ ⌊(data.length : ℚ) * p⌋ :=
    Int.floor_nonneg.mpr (mul_nonneg (Nat.cast_nonneg _) h0)
  have hkn := floor_len_mul_lt data.length p hn h1
  have hmin : 0 ≤ min ⌊(data.length : ℚ) * p⌋ ((data.length : Int) - 1) := by omega
  have hidx : (min ⌊(data.length : ℚ) * p⌋ ((data.length : Int) - 1)).toNat
      = (⌊(data.length : ℚ) * p⌋).toNat ⊓ (data.length - 1) := by omega
  simp only [percentile, percentileIdx_eq _ _ h0, pyIndex, if_pos hmin, hidx]

theorem percentile_isSome_of (data : List ℚ) (p : ℚ) (hne : data ≠ [])
    (h0 : 0 ≤ p) (h1 : p < 1) : (percentile data p).isSome := by
  rw [percentile_eq_getElem data p hne h0 h1]
  have hn : 0 < data.length := List.length_pos.mpr hne
  have hidx : (⌊(data.length : ℚ) * p⌋).toNat ⊓ (data.length - 1)
      < (data.insertionSort (· ≤ ·)).length := by
    rw [List.length_insertionSort]
    omega
  rw [List.getElem?_eq_getElem hidx]
  rfl

theorem percentile_nil (p : ℚ) : percentile [] p = none := by
  have h : percentileIdx 0 p = -1 := by
    have hz : ((0 : ℕ) : ℚ) * p = 0 := by norm_num
    simp [percentileIdx, pyInt, hz]
  simp [percentile, h, pyIndex, List.insertionSort]

theorem pyIndex_mem {l : List ℚ} {i : Int} {v : ℚ} (h : pyIndex l i = some v) : v ∈ l := by
  unfold pyIndex at h
  split at h
  · exact List.getElem?_mem h
  · split at h
    · exact List.getElem?_mem h
    · exact absurd h (by simp)

theorem insertionSort_eq_of_perm {l1 l2 : List ℚ} (h : l1.Perm l2) :
    l1.insertionSort (· ≤ ·) = l2.insertionSort (· ≤ ·) :=
  List.eq_of_perm_of_sorted
    ((List.perm_insertionSort _ l1).trans (h.trans (List.perm_insertionSort _ l2).symm))
    (List.sorted_insertionSort _ l1) (List.sorted_insertionSort _ l2)

theorem percentile_congr_perm {l1 l2 : List ℚ} (p : ℚ) (h : l1.Perm l2) :
    percentile l1 p = percentile l2 p := by
  simp only [percentile, insertionSort_eq_of_perm h, h.length_eq]

theorem insertionSort_replicate (n : ℕ) (v : ℚ) :
    (List.replicate n v).insertionSort (· ≤ ·) = List.replicate n v := by
  have hp := List.perm_insertionSort ((· ≤ ·) : ℚ → ℚ → Prop) (List.replicate n v)
  refine List.eq_replicate_iff.mpr ⟨by rw [hp.length_eq, List.length_replicate], ?_⟩
  intro b hb
  exact List.eq_of_mem_replicate (hp.mem_iff.mp hb)

theorem percentile_replicate (n : ℕ) (v : ℚ) (p : ℚ) (hn : 0 < n)
    (h0 : 0 ≤ p) (h1 : p < 1) : percentile (List.replicate n v) p = some v := by
  have hne : List.replicate n v ≠ [] := List.length_pos.mp (by simpa using hn)
  rw [percentile_eq_getElem _ _ hne h0 h1]
  rw [insertionSort_replicate]
  have hk0 : 0 ≤ ⌊((List.replicate n v).length : ℚ) * p⌋ :=
    Int.floor_nonneg.mpr (mul_nonneg (Nat.cast_nonneg _) h0)
  have hkn := floor_len_mul_lt (List.replicate n v).length p (by simpa using hn) h1
  have hlen : (List.replicate n v).length = n := List.length_replicate n v
  exact List.getElem?_replicate_of_lt (by omega)

theorem percentile_eval (data sorted : List ℚ) (p : ℚ) (k : Int) (i : ℕ)
    (hs : data.insertionSort (· ≤ ·) = sorted)
    (h0 : 0 ≤ p)
    (hk : ⌊(data.length : ℚ) * p⌋ = k)
    (hi : min k ((data.length : Int) - 1) = (i : Int)) :
    percentile data p = sorted[i]? := by
  simp only [percentile, percentileIdx_eq _ _ h0, hk, hs, hi, pyIndex,
    if_pos (Int.natCast_nonneg i), Int.toNat_natCast]

theorem parse_eval : parse_latencies [("10"), ("20"), ("30"), ("40"), ("50")]
    = ([10, 20, 30, 40, 50] : List ℚ) := by
  have h : parse_latencies [("10"), ("20"), ("30"), ("40"), ("50")]
      = [((10 : ℕ) : ℚ), ((20 : ℕ) : ℚ), ((30 : ℕ) : ℚ), ((40 : ℕ) : ℚ), ((50 : ℕ) : ℚ)] := rfl
  rw [h]
  norm_num

theorem sort_eval : ([10, 20, 30, 40, 50] : List ℚ).insertionSort (· ≤ ·)
    = [10, 20, 30, 40, 50] := by decide

theorem p50_eval : percentile ([10, 20, 30, 40, 50] : List ℚ) (1/2) = some 30 := by
  rw [percentile_eval ([10, 20, 30, 40, 50] : List ℚ) ([10, 20, 30, 40, 50] : List ℚ)
    (1/2) 2 2 sort_eval (by norm_num) (by norm_num [Int.floor_eq_iff]) (by norm_num)]
  rfl

theorem p95_eval : percentile ([10, 20, 30, 40, 50] : List ℚ) (19/20) = some 50 := by
  rw [percentile_eval ([10, 20, 30, 40, 50] : List ℚ) ([10, 20, 30, 40, 50] : List ℚ)
    (19/20) 4 4 sort_eval (by norm_num) (by norm_num [Int.floor_eq_iff]) (by norm_num)]
  rfl

theorem p99_eval : percentile ([10, 20, 30, 40, 50] : List ℚ) (99/100) = some 50 := by
  rw [percentile_eval ([10, 20, 30, 40, 50] : List ℚ) ([10, 20, 30, 40, 50] : List ℚ)
    (99/100) 4 4 sort_eval (by norm_num) (by norm_num [Int.floor_eq_iff]) (by norm_num)]
  rfl

theorem p52_eval : percentile ([5, 2] : List ℚ) (1/2) = some 5 := by
  rw [percentile_eval ([5, 2] : List ℚ) ([2, 5] : List ℚ)
    (1/2) 1 1 (by decide) (by norm_num) (by norm_num [Int.floor_eq_iff]) (by norm_num)]
  rfl

theorem pipeline_eval : pipeline [("10"), ("20"), ("30"), ("40"), ("50")] =
    ⟨[("P50: 30.0 ms"), ("P95: 50.0 ms"), ("P99: 50.0 ms")], some 0⟩ := by
  simp only [pipeline, parse_eval, sort_eval, p50_eval, p95_eval, p99_eval]
  decide

/-! Claims. -/

/-- C1: for every non-empty sample list and fraction `p ∈ [0, 1)`,
`percentile` returns the element at index `min(⌊n * p⌋, n - 1)` of the
ascending-sorted samples (nearest rank, no interpolation); the list it
indexes is sorted and a permutation of the input. -/
theorem percentile_nearest_rank (data : List ℚ) (p : ℚ) (hne : data ≠ [])
    (h0 : 0 ≤ p) (h1 : p < 1) :
    percentile data p =
      (data.insertionSort (· ≤ ·))[(⌊(data.length : ℚ) * p⌋).toNat ⊓ (data.length - 1)]? ∧
    (data.insertionSort (· ≤ ·)).Sorted (· ≤ ·) ∧
    (data.insertionSort (· ≤ ·)).Perm data :=
  ⟨percentile_eq_getElem data p hne h0 h1,
   List.sorted_insertionSort _ data, List.perm_insertionSort _ data⟩

/-- Witness for C1 at `data = [10, 20, 30, 40, 50]`, `p = 1/2`. -/
theorem percentile_nearest_rank_witness :
    (([10, 20, 30, 40, 50] : List ℚ) ≠ []) ∧ ((0 : ℚ) ≤ 1/2) ∧ ((1/2 : ℚ) < 1) ∧
    (percentile ([10, 20, 30, 40, 50] : List ℚ) (1/2) =
      (([10, 20, 30, 40, 50] : List ℚ).insertionSort
        (· ≤ ·))[(⌊((([10, 20, 30, 40, 50] : List ℚ).length : ℚ)) * (1/2)⌋).toNat ⊓
          (([10, 20, 30, 40, 50] : List ℚ).length - 1)]? ∧
      (([10, 20, 30, 40, 50] : List ℚ).insertionSort (· ≤ ·)).Sorted (· ≤ ·) ∧
      (([10, 20, 30, 40, 50] : List ℚ).insertionSort (· ≤ ·)).Perm
        ([10, 20, 30, 40, 50] : List ℚ)) :=
  ⟨by decide, by norm_num, by norm_num,
   percentile_nearest_rank ([10, 20, 30, 40, 50] : List ℚ) (1/2)
     (by decide) (by norm_num) (by norm_num)⟩

/-- C2: for every non-empty sample list and fraction `p ∈ [0, 1)`, the
selected index `min(int(n * p), n - 1)` lies within `[0, n - 1]`, so the
indexing inside `percentile` never goes out of bounds (the call returns a
value rather than raising `IndexError`). -/
theorem percentile_index_in_bounds (data : List ℚ) (p : ℚ) (hne : data ≠ [])
    (h0 : 0 ≤ p) (h1 : p < 1) :
    0 ≤ percentileIdx data.length p ∧
    percentileIdx data.length p ≤ (data.length : Int) - 1 ∧
    (percentile data p).isSome = true := by
  have hn : 0 < data.length := List.length_pos.mpr hne
  have hk0 : 0 ≤ ⌊(data.length : ℚ) * p⌋ :=
    Int.floor_nonneg.mpr (mul_nonneg (Nat.cast_nonneg _) h0)
  have hkn := floor_len_mul_lt data.length p hn h1
  refine ⟨?_, ?_, percentile_isSome_of data p hne h0 h1⟩ <;>
    rw [percentileIdx_eq _ _ h0] <;> omega

/-- Witness for C2 at `data = [1, 2]`, `p = 99/100`. -/
theorem percentile_index_in_bounds_witness :
    (([1, 2] : List ℚ) ≠ []) ∧ ((0 : ℚ) ≤ 99/100) ∧ ((99/100 : ℚ) < 1) ∧
    (0 ≤ percentileIdx ([1, 2] : List ℚ).length (99/100) ∧
     percentileIdx ([1, 2] : List ℚ).length (99/100) ≤ (([1, 2] : List ℚ).length : Int) - 1 ∧
     (percentile ([1, 2] : List ℚ) (99/100)).isSome = true) :=
  ⟨by decide, by norm_num, by norm_num,
   percentile_index_in_bounds ([1, 2] : List ℚ) (99/100)
     (by decide) (by norm_num) (by norm_num)⟩

/-- C3 (counterexample): on the five-line file `10, 20, 30, 40, 50` the
program does NOT print `P50: 30 ms`, `P95: 50 ms`, `P99: 50 ms` — Python's
default float formatting renders the values as `30.0` / `50.0`. -/
theorem sample_run_not_integer_formatted :
    (prog_main [("p95_p99_parser.py"), ("latency.txt")]
        (some [("10"), ("20"), ("30"), ("40"), ("50")])).stdout ≠
      [("P50: 30 ms"), ("P95: 50 ms"), ("P99: 50 ms")] := by
  show (pipeline [("10"), ("20"), ("30"), ("40"), ("50")]).stdout ≠ _
  rw [pipeline_eval]
  decide

/-- C3 (amended): on the five-line file `10, 20, 30, 40, 50` the program
prints exactly `P50: 30.0 ms`, `P95: 50.0 ms`, `P99: 50.0 ms` in that
order (P50 from sorted index `⌊5 * 0.5⌋ = 2`, P95 and P99 from index 4,
each value rendered by Python's default float-to-text conversion) and
exits cleanly with status 0. -/
theorem sample_run_output :
    prog_main [("p95_p99_parser.py"), ("latency.txt")]
        (some [("10"), ("20"), ("30"), ("40"), ("50")]) =
      ⟨[("P50: 30.0 ms"), ("P95: 50.0 ms"), ("P99: 50.0 ms")], some 0⟩ := by
  show pipeline [("10"), ("20"), ("30"), ("40"), ("50")] = _
  exact pipeline_eval

/-- C4: `parse_latencies` returns exactly the values of the parseable
lines (each parsed after stripping surrounding whitespace), in file order;
lines that are empty or unparseable (e.g. `abc`, ``, `12,5`) are skipped
and never abort parsing of the remaining lines. -/
theorem parse_latencies_filters_valid (lines : List String) :
    parse_latencies lines = lines.filterMap (fun l => pyFloat (pyStrip l)) ∧
    parse_latencies (("abc") :: lines) = parse_latencies lines ∧
    parse_latencies (("") :: lines) = parse_latencies lines ∧
    parse_latencies (("12,5") :: lines) = parse_latencies lines := by
  have habc : pyFloat (pyStrip ("abc")) = none := rfl
  have hemp : pyFloat (pyStrip ("")) = none := rfl
  have hcomma : pyFloat (pyStrip ("12,5")) = none := rfl
  refine ⟨?_, ?_, ?_, ?_⟩
  · induction lines with
    | nil => rfl
    | cons l rest ih =>
      simp only [parse_latencies, List.filterMap_cons]
      cases h : pyFloat (pyStrip l) with
      | none => simpa [h] using ih
      | some v => simpa [h] using ih
  · simp only [parse_latencies, habc]
  · simp only [parse_latencies, hemp]
  · simp only [parse_latencies, hcomma]

/-- C5: with a wrong argument count (`sys.argv` of length other than 2,
i.e. zero or more than one real argument) the program prints exactly the
usage line — which is not a percentile line — and exits with status 1;
with exactly one argument it runs the percentile pipeline. -/
theorem main_usage_check (argv : List String) (ls : List String) :
    prog_main argv (some ls) =
      (if argv.length = 2 then pipeline ls else ⟨[usageLine], some 1⟩) ∧
    isPercLine usageLine = false := by
  refine ⟨?_, by decide⟩
  by_cases h : argv.length = 2
  · rw [if_pos h]
    simp [prog_main, h]
  · rw [if_neg h]
    simp [prog_main, h]

/-- C6: `percentile` fails (raises `IndexError`, i.e. returns `none`) on
the empty sample list — where the selected index is `min(0, -1)` — and
succeeds on every non-empty list: for `p ∈ [0, 1)` it returns `none` iff
the input is empty. -/
theorem percentile_none_iff_empty (data : List ℚ) (p : ℚ) (h0 : 0 ≤ p) (h1 : p < 1) :
    (percentile data p = none ↔ data = []) ∧ percentileIdx 0 p = min 0 (-1) := by
  constructor
  · constructor
    · intro h
      by_contra hne
      have hs := percentile_isSome_of data p hne h0 h1
      rw [h] at hs
      exact Bool.noConfusion hs
    · intro h
      subst h
      exact percentile_nil p
  · rw [percentileIdx_eq 0 p h0]
    norm_num

/-- Witness for C6 at `data = []`, `p = 0`. -/
theorem percentile_none_iff_empty_witness :
    ((0 : ℚ) ≤ 0) ∧ ((0 : ℚ) < 1) ∧
    ((percentile ([] : List ℚ) 0 = none ↔ ([] : List ℚ) = []) ∧
      percentileIdx 0 0 = min 0 (-1)) :=
  ⟨le_refl 0, by norm_num, percentile_none_iff_empty [] 0 (le_refl 0) (by norm_num)⟩

/-- C7: every run prints either all three percentile lines (P50, P95, P99
in order) or none of them — the only other possible outputs are the empty
output (crash before the first print) and the usage line alone. -/
theorem output_all_or_nothing (argv : List String) (file : Option (List String)) :
    (∃ v1 v2 v3 : ℚ, (prog_main argv file).stdout =
        [("P50: ") ++ pyFloatStr v1 ++ (" ms"),
         ("P95: ") ++ pyFloatStr v2 ++ (" ms"),
         ("P99: ") ++ pyFloatStr v3 ++ (" ms")]) ∨
    (prog_main argv file).stdout = [] ∨
    (prog_main argv file).stdout = [usageLine] := by
  by_cases h : argv.length = 2
  · cases file with
    | none =>
      right; left
      simp [prog_main, h]
    | some ls =>
      have hp : prog_main argv (some ls) = pipeline ls := by simp [prog_main, h]
      rw [hp]
      by_cases hd : parse_latencies ls = []
      · right; left
        simp [pipeline, hd, percentile_nil]
      · left
        have hne : parse_latencies ls ≠ [] := hd
        have hne1 : (parse_latencies ls).insertionSort (· ≤ ·) ≠ [] := by
          intro hcontra
          apply hne
          have hl := List.length_insertionSort ((· ≤ ·) : ℚ → ℚ → Prop) (parse_latencies ls)
          rw [hcontra] at hl
          exact List.length_eq_zero.mp hl.symm
        have hne2 : ((parse_latencies ls).insertionSort (· ≤ ·)).insertionSort (· ≤ ·) ≠ [] := by
          intro hcontra
          apply hne1
          have hl := List.length_insertionSort ((· ≤ ·) : ℚ → ℚ → Prop)
            ((parse_latencies ls).insertionSort (· ≤ ·))
          rw [hcontra] at hl
          exact List.length_eq_zero.mp hl.symm
        obtain ⟨v50, h50⟩ := Option.isSome_iff_exists.mp
          (percentile_isSome_of _ (1/2) hne (by norm_num) (by norm_num))
        obtain ⟨v95, h95⟩ := Option.isSome_iff_exists.mp
          (percentile_isSome_of _ (19/20) hne1 (by norm_num) (by norm_num))
        obtain ⟨v99, h99⟩ := Option.isSome_iff_exists.mp
          (percentile_isSome_of _ (99/100) hne2 (by norm_num) (by norm_num))
        refine ⟨v50, v95, v99, ?_⟩
        simp only [pipeline, h50, h95, h99]
  · right; right
    simp [prog_main, h]

/-- C8: all three reported percentiles of a constant sample list
(`v` repeated `n ≥ 1` times) equal that constant `v`. -/
theorem percentile_constant_samples (v : ℚ) (n : ℕ) (hn : 1 ≤ n) :
    percentile (List.replicate n v) (1/2) = some v ∧
    percentile (List.replicate n v) (19/20) = some v ∧
    percentile (List.replicate n v) (99/100) = some v :=
  ⟨percentile_replicate n v (1/2) hn (by norm_num) (by norm_num),
   percentile_replicate n v (19/20) hn (by norm_num) (by norm_num),
   percentile_replicate n v (99/100) hn (by norm_num) (by norm_num)⟩

/-- Witness for C8 at `v = 7`, `n = 3`. -/
theorem percentile_constant_samples_witness :
    (1 ≤ 3) ∧
    (percentile (List.replicate 3 (7 : ℚ)) (1/2) = some 7 ∧
     percentile (List.replicate 3 (7 : ℚ)) (19/20) = some 7 ∧
     percentile (List.replicate 3 (7 : ℚ)) (99/100) = some 7) :=
  ⟨by norm_num, percentile_constant_samples 7 3 (by norm_num)⟩

/-- C9: the per-call sort is idempotent and the result depends only on the
multiset of samples: `percentile` on the already-sorted list (the state
left behind by a previous call) and on any permutation of the data agrees
with `percentile` on the original list. -/
theorem percentile_perm_invariant (data data' : List ℚ) (p : ℚ)
    (hperm : data'.Perm data) :
    percentile (data.insertionSort (· ≤ ·)) p = percentile data p ∧
    percentile data' p = percentile data p :=
  ⟨percentile_congr_perm p (List.perm_insertionSort _ data),
   percentile_congr_perm p hperm⟩

/-- Witness for C9 at `data = [3, 1, 2]`, `data' = [2, 3, 1]`, `p = 1/2`. -/
theorem percentile_perm_invariant_witness :
    (([2, 3, 1] : List ℚ).Perm ([3, 1, 2] : List ℚ)) ∧
    (percentile (([3, 1, 2] : List ℚ).insertionSort (· ≤ ·)) (1/2) =
        percentile ([3, 1, 2] : List ℚ) (1/2) ∧
     percentile ([2, 3, 1] : List ℚ) (1/2) = percentile ([3, 1, 2] : List ℚ) (1/2)) :=
  ⟨by decide,
   percentile_perm_invariant ([3, 1, 2] : List ℚ) ([2, 3, 1] : List ℚ) (1/2) (by decide)⟩

/-- C10: every value `percentile` returns is one of the input samples —
the nearest-rank method never interpolates or averages. -/
theorem percentile_mem (data : List ℚ) (p v : ℚ) (h0 : 0 ≤ p) (h1 : p < 1)
    (hv : percentile data p = some v) : v ∈ data := by
  unfold percentile at hv
  exact (List.perm_insertionSort _ data).mem_iff.mp (pyIndex_mem hv)

/-- Witness for C10 at `data = [5, 2]`, `p = 1/2`, returned value `5`. -/
theorem percentile_mem_witness :
    ((0 : ℚ) ≤ 1/2) ∧ ((1/2 : ℚ) < 1) ∧
    (percentile ([5, 2] : List ℚ) (1/2) = some 5) ∧ ((5 : ℚ) ∈ ([5, 2] : List ℚ)) :=
  ⟨by norm_num, by norm_num, p52_eval,
   percentile_mem ([5, 2] : List ℚ) (1/2) 5 (by norm_num) (by norm_num) p52_eval⟩

end Audit
